import Mathlib

/-!
Shallow embedding of the timeline package's geometry and constraint logic.

Number model: JavaScript numbers are modelled as exact rationals (ℚ) for the
pure clamp/convert/branch functions, and as reals (ℝ) for the auto-scroll
speed computation, which uses Math.pow with a non-integer exponent.

Sources embedded here:
 - src/packages/timeline/src/utils/display.ts        (msToPixels, pixelsToMs, clampTime)
 - src/packages/timeline/src/utils/timeline-utils.ts (getScrollState)
 - src/packages/timeline/src/timeline-hooks/use-scale.ts (both useScale versions)
 - src/packages/timeline/src/timeline-hooks/use-auto-scroll.ts
   (calculateScrollSpeed, the rAF loop body, applyPlayheadConstraints,
    applyLeftHandleConstraints, applyRightHandleConstraints)
 - src/unnamed/part_003 (TimelineRootProvider.handleTimeChange)
-/

namespace Timeline

/-! ## utils/display.ts -/

/-- `msToPixels(ms, pxPerMs) = ms * pxPerMs` (display.ts line 24). -/
def msToPixels (ms pxPerMs : ℚ) : ℚ := ms * pxPerMs

/-- `pixelsToMs(px, pxPerMs) = px / pxPerMs` (display.ts line 31); no zero
guard in the source. -/
def pixelsToMs (px pxPerMs : ℚ) : ℚ := px / pxPerMs

/-- `clampTime(time, min, max) = Math.max(min, Math.min(max, time))`
(display.ts line 38). The source's `min`/`max` parameters are named
`lo`/`hi` here to avoid shadowing the Lean order operations. -/
def clampTime (time lo hi : ℚ) : ℚ := max lo (min hi time)

/-! ## Constraint context (context.tsx / part_003 lines 16-24)

The source's `ConstraintContext` also carries `tracks`, a Map of registered
track records whose fields are React callbacks; it is omitted here because it
cannot carry arithmetic content and every theorem below quantifies over the
user-supplied constraint function, so no value of `tracks` could affect them.
-/

structure ConstraintContext where
  currentTime : ℚ
  leftHandlePosition : ℚ
  rightHandlePosition : ℚ
  lo : ℚ
  hi : ℚ
  currentTrackId : Option String

/-- A user-supplied constraint function, `(position, context) => number`. -/
abbrev ConstraintFn := ℚ → ConstraintContext → ℚ

/-! ## use-auto-scroll.ts lines 478-512: applyPlayheadConstraints -/

/-- `applyPlayheadConstraints` from the Playhead component
(use-auto-scroll.ts lines 478-512).  `lo`/`hi` are the context's
`min`/`max`. -/
def applyPlayheadConstraints (lo hi leftHandlePosition rightHandlePosition : ℚ)
    (playheadConstraint : Option ConstraintFn) (proposedTime : ℚ) : ℚ :=
  let constrainedTime := max lo (min hi proposedTime)
  match playheadConstraint with
  | none => constrainedTime
  | some f =>
      let ctx : ConstraintContext :=
        ⟨constrainedTime, leftHandlePosition, rightHandlePosition, lo, hi, none⟩
      let custom := f constrainedTime ctx
      max lo (min hi custom)

/-! ## use-auto-scroll.ts lines 815-850: applyLeftHandleConstraints -/

/-- `applyLeftHandleConstraints` from the left trim-handle component
(use-auto-scroll.ts lines 815-850). -/
def applyLeftHandleConstraints (lo hi minGap currentTime rightHandlePosition : ℚ)
    (leftHandleConstraint : Option ConstraintFn) (proposedPosition : ℚ) : ℚ :=
  let maxAllowed := rightHandlePosition - minGap
  let constrainedPosition := max lo (min proposedPosition maxAllowed)
  match leftHandleConstraint with
  | none => constrainedPosition
  | some f =>
      let ctx : ConstraintContext :=
        ⟨currentTime, constrainedPosition, rightHandlePosition, lo, hi, none⟩
      let custom := f constrainedPosition ctx
      max lo (min custom maxAllowed)

/-! ## use-auto-scroll.ts lines 1162-1197: applyRightHandleConstraints -/

/-- `applyRightHandleConstraints` from the right trim-handle component
(use-auto-scroll.ts lines 1162-1197). -/
def applyRightHandleConstraints (lo hi minGap currentTime leftHandlePosition : ℚ)
    (rightHandleConstraint : Option ConstraintFn) (proposedPosition : ℚ) : ℚ :=
  let minAllowed := leftHandlePosition + minGap
  let constrainedPosition := min hi (max proposedPosition minAllowed)
  match rightHandleConstraint with
  | none => constrainedPosition
  | some f =>
      let ctx : ConstraintContext :=
        ⟨currentTime, leftHandlePosition, constrainedPosition, lo, hi, none⟩
      let custom := f constrainedPosition ctx
      min hi (max custom minAllowed)

/-! ## part_003 lines 256-266: handleTimeChange

`handleTimeChange` clamps the incoming time, updates the internal state only
in uncontrolled mode (`controlledTime === undefined`), and always forwards the
clamped time to the consumer's `onTimeChange`.  Modelled as a pure function
from the relevant provider state to the new internal time and the callback
argument.
-/

structure TimeChangeResult where
  internalTime : ℚ
  onTimeChangeArg : ℚ

/-- `handleTimeChange` (part_003 lines 256-266). `controlledTime = none`
models the `currentTime` prop being `undefined` (uncontrolled mode). -/
def handleTimeChange (lo hi : ℚ) (controlledTime : Option ℚ)
    (internalTime time : ℚ) : TimeChangeResult :=
  let clampedTime := max lo (min hi time)
  let newInternalTime :=
    match controlledTime with
    | none => clampedTime
    | some _ => internalTime
  ⟨newInternalTime, clampedTime⟩

/-! ## utils/timeline-utils.ts lines 110-142: getScrollState -/

/-- The DOM measurements `getScrollState` reads from its scroll container. -/
structure ScrollMetrics where
  scrollLeft : ℚ
  clientWidth : ℚ
  scrollWidth : ℚ

structure ScrollState where
  scrollLeft : ℚ
  scrollWidth : ℚ
  containerWidth : ℚ
  maxScrollLeft : ℚ
  canScrollLeft : Bool
  canScrollRight : Bool

/-- `getScrollState` (timeline-utils.ts lines 110-142).  The JS condition
`maxContentWidth && maxContentWidth > 0` is truthiness of the number followed
by the comparison, i.e. `m ≠ 0 && m > 0`; `logicalMaxPx != null` is modelled
by the option being `some`. -/
def getScrollState (c : ScrollMetrics)
    (maxContentWidth logicalMaxPx : Option ℚ) : ScrollState :=
  let scrollLeft := c.scrollLeft
  let containerWidth := c.clientWidth
  let naturalScrollWidth := c.scrollWidth
  let scrollWidth :=
    match maxContentWidth with
    | some m => if !(m == 0) && decide (0 < m)
        then min naturalScrollWidth m else naturalScrollWidth
    | none => naturalScrollWidth
  let maxScrollLeft := max 0 (scrollWidth - containerWidth)
  let canScrollRightBase := decide (scrollLeft < maxScrollLeft)
  let canScrollLeft := decide (0 < scrollLeft)
  let canScrollRight :=
    match logicalMaxPx with
    | some lmp => canScrollRightBase && decide (scrollLeft + containerWidth < lmp)
    | none => canScrollRightBase
  ⟨scrollLeft, scrollWidth, containerWidth, maxScrollLeft, canScrollLeft, canScrollRight⟩

/-- Claim C8's description of the effective scroll width:
`min(scrollWidth, maxContentWidth)` when `maxContentWidth > 0` is supplied,
`scrollWidth` otherwise. -/
def effScrollWidth (naturalScrollWidth : ℚ) (maxContentWidth : Option ℚ) : ℚ :=
  match maxContentWidth with
  | some m => if 0 < m then min naturalScrollWidth m else naturalScrollWidth
  | none => naturalScrollWidth

/-! ## use-scale.ts: the two `useScale` implementations

`use-scale.ts` contains two back-to-back definitions of `useScale`.  The
first (lines 76-151, identical to the copy in part_004 lines 43-118) stores
`pxPerMs` in a ref; the second (lines 214-292) stores it in React state.
Both are modelled by the pure computation their `recalc` closure performs:
given the config, the (possibly unmounted) container and `durationMs`, it
either leaves the state untouched (`none`, the early `return` when the
container ref is null) or produces the `(pxPerMs, currentScalingType)` pair
it writes (`some`).
-/

inductive ScalingType where
  | fixed
  | container
  | auto
deriving DecidableEq, Repr

/-- A scaling config, `fixed`, `container` or `auto`.  `minPxPerSecond` and
`maxPxPerSecond` are optional on the `auto` config. -/
inductive UseScaleConfig where
  | fixed (fixedPxPerSecond : ℚ)
  | container
  | auto (fixedPxPerSecond : ℚ) (minPxPerSecond maxPxPerSecond : Option ℚ)
deriving DecidableEq

/-- The only DOM measurement `recalc` reads from the container element. -/
structure ScaleContainer where
  clientWidth : ℚ
deriving DecidableEq

/-- `recalc` of the first (ref-based) `useScale`
(use-scale.ts lines 88-135; same text in part_004 lines 55-102).  The JS
guard `config.maxPxPerSecond && containerPxPerSecond > config.maxPxPerSecond`
is truthiness of the number (`m ≠ 0`) conjoined with the comparison. -/
def recalcRef (config : UseScaleConfig) (el : Option ScaleContainer)
    (durationMs : ℚ) : Option (ℚ × ScalingType) :=
  match config with
  | .fixed fixedPxPerSecond => some (fixedPxPerSecond / 1000, .fixed)
  | .container =>
      match el with
      | none => none
      | some el =>
          let width := el.clientWidth
          let containerPxPerMs :=
            if 0 < durationMs ∧ 0 < width then width / durationMs else 0
          some (containerPxPerMs, .container)
  | .auto fixedPxPerSecond minPxOpt maxPxOpt =>
      match el with
      | none => none
      | some el =>
          let width := el.clientWidth
          let containerPxPerMs :=
            if 0 < durationMs ∧ 0 < width then width / durationMs else 0
          let fixedPxPerMs := fixedPxPerSecond / 1000
          let containerPxPerSecond := containerPxPerMs * 1000
          let minPxPerSecond := minPxOpt.getD fixedPxPerSecond
          let isContainerTooSmall := decide (containerPxPerSecond < minPxPerSecond)
          let isContainerTooLarge :=
            match maxPxOpt with
            | some m => !(m == 0) && decide (m < containerPxPerSecond)
            | none => false
          if isContainerTooSmall || isContainerTooLarge
          then some (fixedPxPerMs, .auto)
          else some (containerPxPerMs, .auto)

/-- `recalc` of the second (state-based) `useScale`
(use-scale.ts lines 226-276).  Identical to `recalcRef` except for the
`container` fallback, which is `0.05` instead of `0`. -/
def recalcState (config : UseScaleConfig) (el : Option ScaleContainer)
    (durationMs : ℚ) : Option (ℚ × ScalingType) :=
  match config with
  | .fixed fixedPxPerSecond => some (fixedPxPerSecond / 1000, .fixed)
  | .container =>
      match el with
      | none => none
      | some el =>
          let width := el.clientWidth
          let containerPxPerMs :=
            if 0 < durationMs ∧ 0 < width then width / durationMs else (0.05 : ℚ)
          some (containerPxPerMs, .container)
  | .auto fixedPxPerSecond minPxOpt maxPxOpt =>
      match el with
      | none => none
      | some el =>
          let width := el.clientWidth
          let containerPxPerMs :=
            if 0 < durationMs ∧ 0 < width then width / durationMs else 0
          let fixedPxPerMs := fixedPxPerSecond / 1000
          let containerPxPerSecond := containerPxPerMs * 1000
          let minPxPerSecond := minPxOpt.getD fixedPxPerSecond
          let isContainerTooSmall := decide (containerPxPerSecond < minPxPerSecond)
          let isContainerTooLarge :=
            match maxPxOpt with
            | some m => !(m == 0) && decide (m < containerPxPerSecond)
            | none => false
          if isContainerTooSmall || isContainerTooLarge
          then some (fixedPxPerMs, .auto)
          else some (containerPxPerMs, .auto)

/-- Claim C3's description of the `auto` branch, formalised from the claim's
words (not from the code): with
`containerPxPerSecond = (clientWidth / durationMs) * 1000` when
`durationMs > 0` and `clientWidth > 0` and `0` otherwise, the result is
`fixedPxPerSecond / 1000` exactly when `containerPxPerSecond < minPxPerSecond`
(defaulting to `fixedPxPerSecond`) or `maxPxPerSecond` is set and
`containerPxPerSecond > maxPxPerSecond`, and `clientWidth / durationMs`
otherwise. -/
def specAutoPxPerMs (fixedPxPerSecond : ℚ) (minPxOpt maxPxOpt : Option ℚ)
    (clientWidth durationMs : ℚ) : ℚ :=
  let containerPxPerSecond :=
    if 0 < durationMs ∧ 0 < clientWidth
    then clientWidth / durationMs * 1000 else 0
  let minPxPerSecond := minPxOpt.getD fixedPxPerSecond
  let tooLarge :=
    match maxPxOpt with
    | some m => decide (m < containerPxPerSecond)
    | none => false
  if decide (containerPxPerSecond < minPxPerSecond) || tooLarge
  then fixedPxPerSecond / 1000
  else clientWidth / durationMs

/-- The `containerPxPerMs` quantity of `recalc`, as amended claim C3 words
it: `clientWidth / durationMs` when `durationMs > 0` and `clientWidth > 0`,
`0` otherwise. -/
def specContainerPxPerMs (clientWidth durationMs : ℚ) : ℚ :=
  if 0 < durationMs ∧ 0 < clientWidth then clientWidth / durationMs else 0

/-- The fixed-fallback condition of the `auto` branch, as amended claim C3
words it: the container rate is below the minimum, or a nonzero
`maxPxPerSecond` is supplied and the container rate exceeds it. -/
def specAutoFallsBackToFixed (fixedPxPerSecond : ℚ) (minPxOpt maxPxOpt : Option ℚ)
    (clientWidth durationMs : ℚ) : Prop :=
  specContainerPxPerMs clientWidth durationMs * 1000 <
      minPxOpt.getD fixedPxPerSecond
    ∨ ∃ m, maxPxOpt = some m ∧ m ≠ 0
        ∧ m < specContainerPxPerMs clientWidth durationMs * 1000

instance (fps : ℚ) (minPxOpt maxPxOpt : Option ℚ) (w d : ℚ) :
    Decidable (specAutoFallsBackToFixed fps minPxOpt maxPxOpt w d) :=
  match maxPxOpt with
  | none =>
      decidable_of_iff (specContainerPxPerMs w d * 1000 < minPxOpt.getD fps)
        (by simp [specAutoFallsBackToFixed])
  | some m =>
      decidable_of_iff
        (specContainerPxPerMs w d * 1000 < minPxOpt.getD fps
          ∨ m ≠ 0 ∧ m < specContainerPxPerMs w d * 1000)
        (by simp [specAutoFallsBackToFixed])

/-! ## use-auto-scroll.ts lines 44-102: calculateScrollSpeed and the rAF loop

`calculateScrollSpeed` applies `Math.pow` with a non-integer exponent
(`acceleration` defaults to 2.5), so this part of the code is modelled over
ℝ with real exponentiation (`Real.rpow`).  Comparisons on ℝ are not
decidable, so the `if`s use classical choice.
-/

section AutoScroll

open scoped Classical

/-- `calculateScrollSpeed` (use-auto-scroll.ts lines 44-52; the copy in
part_004 lines 182-190 takes `threshold`/`maxSpeed` as arguments but computes
the same expression).  `edgeThreshold`, `acceleration` and `maxScrollSpeed`
are the hook options captured by the closure. -/
noncomputable def calculateScrollSpeed
    (edgeThreshold acceleration maxScrollSpeed distanceFromEdge : ℝ) : ℝ :=
  if edgeThreshold ≤ distanceFromEdge then 0
  else
    let proximity := 1 - distanceFromEdge / edgeThreshold
    let accelerated := proximity ^ acceleration
    accelerated * maxScrollSpeed

/-- The DOM state of the auto-scroll container that one iteration of `loop`
reads and writes: its scroll position, scroll extents and bounding rectangle
(only the horizontal coordinates matter to the horizontal-only loop). -/
structure AutoScrollContainer where
  scrollLeft : ℝ
  scrollWidth : ℝ
  clientWidth : ℝ
  rectLeft : ℝ
  rectRight : ℝ

/-- Lines 62-81 of use-auto-scroll.ts: clamp the mouse X into the activation
margin and derive the scroll direction and speed from the distances to the
container edges.  Returns `(scrollDirection, speed)`, `(0, 0)` when the mouse
is in neither edge zone. -/
noncomputable def loopDirectionSpeed
    (edgeThreshold acceleration maxScrollSpeed activationMargin : ℝ)
    (c : AutoScrollContainer) (eventClientX : ℝ) : ℝ × ℝ :=
  let minX := c.rectLeft - activationMargin
  let maxX := c.rectRight + activationMargin
  let mouseX := max minX (min eventClientX maxX)
  let distanceFromLeft := mouseX - c.rectLeft
  let distanceFromRight := c.rectRight - mouseX
  if distanceFromLeft < edgeThreshold then
    (-1, calculateScrollSpeed edgeThreshold acceleration maxScrollSpeed distanceFromLeft)
  else if distanceFromRight < edgeThreshold then
    (1, calculateScrollSpeed edgeThreshold acceleration maxScrollSpeed distanceFromRight)
  else
    (0, 0)

/-- One iteration of the rAF `loop` body with the container and a mouse
event present (use-auto-scroll.ts lines 60-99).  Returns the container after
the iteration and `some (scrollDelta, clampedScrollLeft)` when the
`onScrollChange` callback is invoked (`hasOnScrollChange` models whether a
callback was registered), `none` otherwise. -/
noncomputable def loopStep
    (edgeThreshold acceleration maxScrollSpeed activationMargin : ℝ)
    (hasOnScrollChange : Bool) (c : AutoScrollContainer) (eventClientX : ℝ) :
    AutoScrollContainer × Option (ℝ × ℝ) :=
  let ds := loopDirectionSpeed edgeThreshold acceleration maxScrollSpeed
    activationMargin c eventClientX
  let scrollDirection := ds.1
  let speed := ds.2
  if scrollDirection ≠ 0 ∧ 0 < speed then
    let oldScrollLeft := c.scrollLeft
    let newScrollLeft := c.scrollLeft + scrollDirection * speed
    let maxScrollLeft := c.scrollWidth - c.clientWidth
    let clampedScrollLeft := max 0 (min newScrollLeft maxScrollLeft)
    let c' : AutoScrollContainer :=
      ⟨clampedScrollLeft, c.scrollWidth, c.clientWidth, c.rectLeft, c.rectRight⟩
    let scrollDelta := clampedScrollLeft - oldScrollLeft
    if scrollDelta ≠ 0 ∧ hasOnScrollChange = true then
      (c', some (scrollDelta, clampedScrollLeft))
    else
      (c', none)
  else
    (c, none)

/-- Postcondition of claim C4 for one iteration of the auto-scroll loop:
when an edge zone is active with positive speed, the new `scrollLeft` is the
old one plus direction times speed clamped to `[0, scrollWidth - clientWidth]`
(so it is never set below `0` or above `scrollWidth - clientWidth`);
otherwise the container is untouched and no callback fires; and the
`onScrollChange` callback is invoked only with a nonzero clamped delta. -/
def AutoScrollLoopPost
    (edgeThreshold acceleration maxScrollSpeed activationMargin : ℝ)
    (hasOnScrollChange : Bool) (c : AutoScrollContainer) (eventClientX : ℝ) : Prop :=
  let r := loopStep edgeThreshold acceleration maxScrollSpeed activationMargin
    hasOnScrollChange c eventClientX
  let ds := loopDirectionSpeed edgeThreshold acceleration maxScrollSpeed
    activationMargin c eventClientX
  ((ds.1 ≠ 0 ∧ 0 < ds.2) →
      r.1.scrollLeft
          = max 0 (min (c.scrollLeft + ds.1 * ds.2) (c.scrollWidth - c.clientWidth))
        ∧ 0 ≤ r.1.scrollLeft
        ∧ r.1.scrollLeft ≤ c.scrollWidth - c.clientWidth)
    ∧ (¬(ds.1 ≠ 0 ∧ 0 < ds.2) → r.1 = c ∧ r.2 = none)
    ∧ (∀ d s, r.2 = some (d, s) →
        d ≠ 0 ∧ hasOnScrollChange = true
          ∧ d = r.1.scrollLeft - c.scrollLeft ∧ s = r.1.scrollLeft)

end AutoScroll

/-! ## Theorems -/

/-- C7: unit-conversion round trip.  For every nonzero scale `pxPerMs`,
`pixelsToMs (msToPixels ms) = ms` and `msToPixels (pixelsToMs px) = px` over
exact rational arithmetic; `pixelsToMs` divides without a zero guard, so the
hypothesis `pxPerMs ≠ 0` is required. -/
theorem unit_conversion_round_trip (pxPerMs ms px : ℚ) (h : pxPerMs ≠ 0) :
    pixelsToMs (msToPixels ms pxPerMs) pxPerMs = ms
      ∧ msToPixels (pixelsToMs px pxPerMs) pxPerMs = px := by
  unfold pixelsToMs msToPixels
  exact ⟨mul_div_cancel_right₀ ms h, div_mul_cancel₀ px h⟩

/-- Witness for C7 at `pxPerMs = 2`, `ms = 7`, `px = 5`. -/
theorem unit_conversion_round_trip_witness :
    (2 : ℚ) ≠ 0
      ∧ (pixelsToMs (msToPixels 7 2) 2 = 7 ∧ msToPixels (pixelsToMs 5 2) 2 = 5) :=
  ⟨by norm_num, unit_conversion_round_trip 2 7 5 (by norm_num)⟩

/-- C5: time-change clamping.  `handleTimeChange` computes
`clampedTime = max(min, min(max, t))`; in uncontrolled mode
(`controlledTime = none`) the internal time state becomes `clampedTime`, in
controlled mode it is left unchanged, and the consumer's `onTimeChange`
always receives `clampedTime`, never the raw proposed time. -/
theorem handle_time_change_clamps (lo hi internalTime time controlled : ℚ) :
    (handleTimeChange lo hi none internalTime time).internalTime
        = max lo (min hi time)
      ∧ (handleTimeChange lo hi (some controlled) internalTime time).internalTime
        = internalTime
      ∧ ∀ controlledTime : Option ℚ,
          (handleTimeChange lo hi controlledTime internalTime time).onTimeChangeArg
            = max lo (min hi time) := by
  refine ⟨rfl, rfl, fun controlledTime => ?_⟩
  cases controlledTime <;> rfl

/-- C8: `getScrollState` postconditions.  `maxScrollLeft` equals
`max 0 (effScrollWidth - clientWidth)` and is never negative;
`canScrollLeft` holds iff `scrollLeft > 0`; `canScrollRight` holds iff
`scrollLeft < maxScrollLeft`, additionally conjoined with
`scrollLeft + clientWidth < logicalMaxPx` when `logicalMaxPx` is provided. -/
theorem get_scroll_state_postconditions (c : ScrollMetrics)
    (maxContentWidth logicalMaxPx : Option ℚ) (lmp : ℚ) :
    0 ≤ (getScrollState c maxContentWidth logicalMaxPx).maxScrollLeft
      ∧ (getScrollState c maxContentWidth logicalMaxPx).maxScrollLeft
          = max 0 (effScrollWidth c.scrollWidth maxContentWidth - c.clientWidth)
      ∧ ((getScrollState c maxContentWidth logicalMaxPx).canScrollLeft = true
          ↔ 0 < c.scrollLeft)
      ∧ ((getScrollState c maxContentWidth none).canScrollRight = true
          ↔ c.scrollLeft < (getScrollState c maxContentWidth none).maxScrollLeft)
      ∧ ((getScrollState c maxContentWidth (some lmp)).canScrollRight = true
          ↔ c.scrollLeft < (getScrollState c maxContentWidth (some lmp)).maxScrollLeft
              ∧ c.scrollLeft + c.clientWidth < lmp) := by
  have heff :
      (match maxContentWidth with
        | some m => if !(m == 0) && decide (0 < m)
            then min c.scrollWidth m else c.scrollWidth
        | none => c.scrollWidth)
        = effScrollWidth c.scrollWidth maxContentWidth := by
    unfold effScrollWidth
    rcases maxContentWidth with _ | m
    · rfl
    · by_cases hm : 0 < m
      · have : ¬(m = 0) := by exact ne_of_gt hm
        simp [hm, this]
      · simp [hm]
  refine ⟨le_max_left _ _, ?_, ?_, ?_, ?_⟩ <;>
    simp only [getScrollState, heff] <;> simp [and_assoc]

/-- C1: trim-handle gap invariant.  Assuming `min ≤ rightHandlePosition -
minGap`, `applyLeftHandleConstraints` returns a value in
`[min, rightHandlePosition - minGap]` for every proposed position and every
(possibly out-of-range) custom constraint, so the updated left handle keeps
`left + minGap ≤ rightHandlePosition`; symmetrically, assuming
`leftHandlePosition + minGap ≤ max`, `applyRightHandleConstraints` returns a
value in `[leftHandlePosition + minGap, max]`, so the updated right handle
keeps `leftHandlePosition + minGap ≤ right`. -/
theorem trim_handle_gap_invariant
    (lo hi minGap currentTime leftHandlePosition rightHandlePosition : ℚ)
    (fL fR : Option ConstraintFn) (p q : ℚ)
    (hL : lo ≤ rightHandlePosition - minGap)
    (hR : leftHandlePosition + minGap ≤ hi) :
    (lo ≤ applyLeftHandleConstraints lo hi minGap currentTime rightHandlePosition fL p
      ∧ applyLeftHandleConstraints lo hi minGap currentTime rightHandlePosition fL p
          ≤ rightHandlePosition - minGap
      ∧ applyLeftHandleConstraints lo hi minGap currentTime rightHandlePosition fL p
          + minGap ≤ rightHandlePosition)
    ∧ (leftHandlePosition + minGap
          ≤ applyRightHandleConstraints lo hi minGap currentTime leftHandlePosition fR q
      ∧ applyRightHandleConstraints lo hi minGap currentTime leftHandlePosition fR q
          ≤ hi
      ∧ leftHandlePosition + minGap
          ≤ applyRightHandleConstraints lo hi minGap currentTime leftHandlePosition fR q) := by
  have left_bounds : ∀ x : ℚ,
      lo ≤ max lo (min x (rightHandlePosition - minGap))
        ∧ max lo (min x (rightHandlePosition - minGap)) ≤ rightHandlePosition - minGap :=
    fun x => ⟨le_max_left _ _, max_le hL (min_le_right _ _)⟩
  have right_bounds : ∀ x : ℚ,
      leftHandlePosition + minGap ≤ min hi (max x (leftHandlePosition + minGap))
        ∧ min hi (max x (leftHandlePosition + minGap)) ≤ hi :=
    fun x => ⟨le_min hR (le_max_right _ _), min_le_left _ _⟩
  constructor
  · have hb :
        lo ≤ applyLeftHandleConstraints lo hi minGap currentTime rightHandlePosition fL p
          ∧ applyLeftHandleConstraints lo hi minGap currentTime rightHandlePosition fL p
              ≤ rightHandlePosition - minGap := by
      unfold applyLeftHandleConstraints
      cases fL <;> exact left_bounds _
    exact ⟨hb.1, hb.2, by linarith [hb.2]⟩
  · have hb :
        leftHandlePosition + minGap
            ≤ applyRightHandleConstraints lo hi minGap currentTime leftHandlePosition fR q
          ∧ applyRightHandleConstraints lo hi minGap currentTime leftHandlePosition fR q
              ≤ hi := by
      unfold applyRightHandleConstraints
      cases fR <;> exact right_bounds _
    exact ⟨hb.1, hb.2, hb.1⟩

/-- Witness for C1: `min = 0`, `max = 100`, `minGap = 10`, handles at 20/50,
with custom constraints returning the wildly out-of-range values `10^6` and
`-10^6` and proposed positions equally out of range. -/
theorem trim_handle_gap_invariant_witness :
    ((0 : ℚ) ≤ 50 - 10 ∧ (20 : ℚ) + 10 ≤ 100)
      ∧ ((0 ≤ applyLeftHandleConstraints 0 100 10 5 50
              (some fun _ _ => 1000000) 999999
          ∧ applyLeftHandleConstraints 0 100 10 5 50
              (some fun _ _ => 1000000) 999999 ≤ 50 - 10
          ∧ applyLeftHandleConstraints 0 100 10 5 50
              (some fun _ _ => 1000000) 999999 + 10 ≤ 50)
        ∧ (20 + 10 ≤ applyRightHandleConstraints 0 100 10 5 20
              (some fun _ _ => -1000000) (-999999)
          ∧ applyRightHandleConstraints 0 100 10 5 20
              (some fun _ _ => -1000000) (-999999) ≤ 100
          ∧ 20 + 10 ≤ applyRightHandleConstraints 0 100 10 5 20
              (some fun _ _ => -1000000) (-999999))) :=
  ⟨⟨by norm_num, by norm_num⟩,
    trim_handle_gap_invariant 0 100 10 5 20 50
      (some fun _ _ => 1000000) (some fun _ _ => -1000000) 999999 (-999999)
      (by norm_num) (by norm_num)⟩

/-- C2: playhead clamping.  Assuming `min ≤ max`,
`applyPlayheadConstraints` always returns a value in `[min, max]`; moreover
the proposed time is first clamped to `[min, max]`, and a custom playhead
constraint's result is clamped to `[min, max]` again before being
returned. -/
theorem playhead_constraints_clamped
    (lo hi leftHandlePosition rightHandlePosition t : ℚ)
    (f : Option ConstraintFn) (g : ConstraintFn) (h : lo ≤ hi) :
    (lo ≤ applyPlayheadConstraints lo hi leftHandlePosition rightHandlePosition f t
      ∧ applyPlayheadConstraints lo hi leftHandlePosition rightHandlePosition f t ≤ hi)
    ∧ applyPlayheadConstraints lo hi leftHandlePosition rightHandlePosition none t
        = clampTime t lo hi
    ∧ applyPlayheadConstraints lo hi leftHandlePosition rightHandlePosition (some g) t
        = clampTime
            (g (clampTime t lo hi)
              ⟨clampTime t lo hi, leftHandlePosition, rightHandlePosition, lo, hi, none⟩)
            lo hi := by
  refine ⟨?_, rfl, rfl⟩
  have bounds : ∀ x : ℚ, lo ≤ max lo (min hi x) ∧ max lo (min hi x) ≤ hi :=
    fun x => ⟨le_max_left _ _, max_le h (min_le_left _ _)⟩
  unfold applyPlayheadConstraints
  cases f <;> exact bounds _

/-- Witness for C2: `min = 0`, `max = 100`, a custom constraint returning
the out-of-range value `-5000`, and proposed time `777`. -/
theorem playhead_constraints_clamped_witness :
    (0 : ℚ) ≤ 100
      ∧ ((0 ≤ applyPlayheadConstraints 0 100 20 50 (some fun _ _ => -5000) 777
          ∧ applyPlayheadConstraints 0 100 20 50 (some fun _ _ => -5000) 777 ≤ 100)
        ∧ applyPlayheadConstraints 0 100 20 50 none 777 = clampTime 777 0 100
        ∧ applyPlayheadConstraints 0 100 20 50 (some fun _ _ => -5000) 777
            = clampTime
                ((fun (_ : ℚ) (_ : ConstraintContext) => (-5000 : ℚ))
                  (clampTime 777 0 100)
                  ⟨clampTime 777 0 100, 20, 50, 0, 100, none⟩)
                0 100) :=
  ⟨by norm_num,
    playhead_constraints_clamped 0 100 20 50 777 (some fun _ _ => -5000)
      (fun _ _ => -5000) (by norm_num)⟩

/-- Counterexamples to C3 as stated.  First input: `maxPxPerSecond = 0` is
supplied ("set"), `containerPxPerSecond = 1000 > 0`, so the claim demands the
fixed fallback `10/1000`; the code treats `0` as falsy and keeps the
container value `1`.  Second input: `durationMs = -5 ≤ 0` with
`minPxPerSecond = 0`, so neither fallback condition holds and the claim
demands `clientWidth / durationMs = -20`; the code computed
`containerPxPerMs = 0` and returns `0`. -/
theorem scale_auto_claim_counterexample :
    recalcRef (.auto 10 (some 0) (some 0)) (some ⟨100⟩) 100
        ≠ some (specAutoPxPerMs 10 (some 0) (some 0) 100 100, .auto)
      ∧ recalcRef (.auto 10 (some 0) none) (some ⟨100⟩) (-5)
        ≠ some (specAutoPxPerMs 10 (some 0) none 100 (-5), .auto) := by
  constructor <;>
    · simp only [recalcRef, specAutoPxPerMs]
      norm_num

/-- C3 (amended): in `recalc` of the ref-based `useScale`, a `fixed` config
always sets `pxPerMs` to `fixedPxPerSecond / 1000`; for an `auto` config with
a mounted container, `pxPerMs` is set to `fixedPxPerSecond / 1000` exactly
when `containerPxPerSecond < minPxPerSecond` (defaulting to
`fixedPxPerSecond`) or `maxPxPerSecond` is set to a nonzero value and
`containerPxPerSecond > maxPxPerSecond`, and to `containerPxPerMs`
(`clientWidth / durationMs` when `durationMs > 0` and `clientWidth > 0`, `0`
otherwise) otherwise. -/
theorem scale_recalc_amended (fps durationMs : ℚ) (minPxOpt maxPxOpt : Option ℚ)
    (el : Option ScaleContainer) (sc : ScaleContainer) :
    recalcRef (.fixed fps) el durationMs = some (fps / 1000, .fixed)
      ∧ recalcRef (.auto fps minPxOpt maxPxOpt) (some sc) durationMs
        = some
            (if specAutoFallsBackToFixed fps minPxOpt maxPxOpt sc.clientWidth durationMs
             then fps / 1000
             else specContainerPxPerMs sc.clientWidth durationMs, .auto) := by
  refine ⟨rfl, ?_⟩
  rcases maxPxOpt with _ | m <;>
    · simp [recalcRef, specAutoFallsBackToFixed, specContainerPxPerMs]
      split_ifs <;> simp_all

/-- Counterexample to C6 as stated: for a `container` config with a mounted
container of width 100 and `durationMs = 0`, the ref-based version computes
`0` while the state-based version computes `0.05`, so the two versions do
not produce the same fallback value. -/
theorem use_scale_versions_differ :
    recalcRef .container (some ⟨100⟩) 0 ≠ recalcState .container (some ⟨100⟩) 0 := by
  simp only [recalcRef, recalcState]
  norm_num

/-- C6 (amended): the two `useScale` implementations compute the same
`pxPerMs` for every `fixed` and `auto` config and for every `container`
config with `durationMs > 0` and `clientWidth > 0`; for a `container` config
with `durationMs ≤ 0` or `clientWidth ≤ 0` they diverge: the ref-based
version falls back to `0` while the state-based version falls back to
`0.05`. -/
theorem use_scale_versions_agree_amended (config : UseScaleConfig)
    (el : Option ScaleContainer) (durationMs : ℚ) :
    recalcRef config el durationMs = recalcState config el durationMs
      ∨ ∃ sc, el = some sc ∧ config = .container
          ∧ ¬(0 < durationMs ∧ 0 < sc.clientWidth)
          ∧ recalcRef config el durationMs = some (0, .container)
          ∧ recalcState config el durationMs = some ((0.05 : ℚ), .container) := by
  cases config with
  | fixed fps => exact Or.inl rfl
  | container =>
      cases el with
      | none => exact Or.inl rfl
      | some sc =>
          by_cases h : 0 < durationMs ∧ 0 < sc.clientWidth
          · exact Or.inl (by simp [recalcRef, recalcState, h])
          · exact Or.inr ⟨sc, rfl, rfl, h,
              by simp [recalcRef, h], by simp [recalcState, h]⟩
  | auto fps minPxOpt maxPxOpt =>
      cases el with
      | none => exact Or.inl rfl
      | some sc => exact Or.inl rfl

/-! Helper lemmas about `calculateScrollSpeed`. -/

theorem calculateScrollSpeed_of_threshold_le
    (edgeThreshold acceleration maxScrollSpeed d : ℝ) (h : edgeThreshold ≤ d) :
    calculateScrollSpeed edgeThreshold acceleration maxScrollSpeed d = 0 := by
  unfold calculateScrollSpeed
  rw [if_pos h]

theorem calculateScrollSpeed_of_lt_threshold
    (edgeThreshold acceleration maxScrollSpeed d : ℝ) (h : d < edgeThreshold) :
    calculateScrollSpeed edgeThreshold acceleration maxScrollSpeed d
      = (1 - d / edgeThreshold) ^ acceleration * maxScrollSpeed := by
  unfold calculateScrollSpeed
  rw [if_neg (not_le.mpr h)]

/-- C9: auto-scroll speed limit and monotonicity.  `calculateScrollSpeed`
returns `0` for every `distanceFromEdge ≥ edgeThreshold`; for
`distanceFromEdge ∈ [0, edgeThreshold)` it returns
`(1 - distanceFromEdge/edgeThreshold) ^ acceleration * maxScrollSpeed`, a
value in `(0, maxScrollSpeed]`; and it is monotonically non-increasing in
the distance (hypotheses `edgeThreshold > 0`, `acceleration > 0`,
`maxScrollSpeed > 0`, as the claim states). -/
theorem calculate_scroll_speed_spec
    (edgeThreshold acceleration maxScrollSpeed d d' : ℝ)
    (ht : 0 < edgeThreshold) (ha : 0 < acceleration) (hm : 0 < maxScrollSpeed) :
    (edgeThreshold ≤ d →
        calculateScrollSpeed edgeThreshold acceleration maxScrollSpeed d = 0)
      ∧ (0 ≤ d → d < edgeThreshold →
          calculateScrollSpeed edgeThreshold acceleration maxScrollSpeed d
              = (1 - d / edgeThreshold) ^ acceleration * maxScrollSpeed
            ∧ 0 < calculateScrollSpeed edgeThreshold acceleration maxScrollSpeed d
            ∧ calculateScrollSpeed edgeThreshold acceleration maxScrollSpeed d
                ≤ maxScrollSpeed)
      ∧ (0 ≤ d → d ≤ d' →
          calculateScrollSpeed edgeThreshold acceleration maxScrollSpeed d'
            ≤ calculateScrollSpeed edgeThreshold acceleration maxScrollSpeed d) := by
  have hin : ∀ x : ℝ, 0 ≤ x → x < edgeThreshold →
      calculateScrollSpeed edgeThreshold acceleration maxScrollSpeed x
          = (1 - x / edgeThreshold) ^ acceleration * maxScrollSpeed
        ∧ 0 < calculateScrollSpeed edgeThreshold acceleration maxScrollSpeed x
        ∧ calculateScrollSpeed edgeThreshold acceleration maxScrollSpeed x
            ≤ maxScrollSpeed := by
    intro x hx hxt
    have heq := calculateScrollSpeed_of_lt_threshold
      edgeThreshold acceleration maxScrollSpeed x hxt
    have hbase : 0 < 1 - x / edgeThreshold := by
      have : x / edgeThreshold < 1 := (div_lt_one ht).mpr hxt
      linarith
    have hbase1 : 1 - x / edgeThreshold ≤ 1 := by
      have : 0 ≤ x / edgeThreshold := div_nonneg hx ht.le
      linarith
    have hpow1 : (1 - x / edgeThreshold) ^ acceleration ≤ 1 :=
      Real.rpow_le_one hbase.le hbase1 ha.le
    refine ⟨heq, ?_, ?_⟩
    · rw [heq]
      exact mul_pos (Real.rpow_pos_of_pos hbase acceleration) hm
    · rw [heq]
      exact mul_le_of_le_one_left hm.le hpow1
  have hnonneg : ∀ x : ℝ, 0 ≤ x →
      0 ≤ calculateScrollSpeed edgeThreshold acceleration maxScrollSpeed x := by
    intro x hx
    by_cases hxt : edgeThreshold ≤ x
    · rw [calculateScrollSpeed_of_threshold_le edgeThreshold acceleration
        maxScrollSpeed x hxt]
    · exact ((hin x hx (not_le.mp hxt)).2.1).le
  refine ⟨calculateScrollSpeed_of_threshold_le edgeThreshold acceleration
    maxScrollSpeed d, hin d, ?_⟩
  intro hd hdd'
  by_cases hd't : edgeThreshold ≤ d'
  · rw [calculateScrollSpeed_of_threshold_le edgeThreshold acceleration
      maxScrollSpeed d' hd't]
    exact hnonneg d hd
  · have hd'lt : d' < edgeThreshold := not_le.mp hd't
    have hdlt : d < edgeThreshold := lt_of_le_of_lt hdd' hd'lt
    rw [calculateScrollSpeed_of_lt_threshold edgeThreshold acceleration
        maxScrollSpeed d' hd'lt,
      calculateScrollSpeed_of_lt_threshold edgeThreshold acceleration
        maxScrollSpeed d hdlt]
    have hbase' : 0 ≤ 1 - d' / edgeThreshold := by
      have : d' / edgeThreshold < 1 := (div_lt_one ht).mpr hd'lt
      linarith
    have hbases : 1 - d' / edgeThreshold ≤ 1 - d / edgeThreshold := by
      have : d / edgeThreshold ≤ d' / edgeThreshold := by gcongr
      linarith
    exact mul_le_mul_of_nonneg_right
      (Real.rpow_le_rpow hbase' hbases ha.le) hm.le

/-- Witness for C9 at `edgeThreshold = 80`, `acceleration = 1`,
`maxScrollSpeed = 25`, distances `100` and `120`. -/
theorem calculate_scroll_speed_spec_witness :
    ((0 : ℝ) < 80 ∧ (0 : ℝ) < 1 ∧ (0 : ℝ) < 25)
      ∧ (((80 : ℝ) ≤ 100 → calculateScrollSpeed 80 1 25 100 = 0)
        ∧ ((0 : ℝ) ≤ 100 → (100 : ℝ) < 80 →
            calculateScrollSpeed 80 1 25 100
                = (1 - 100 / 80) ^ (1 : ℝ) * 25
              ∧ 0 < calculateScrollSpeed 80 1 25 100
              ∧ calculateScrollSpeed 80 1 25 100 ≤ 25)
        ∧ ((0 : ℝ) ≤ 100 → (100 : ℝ) ≤ 120 →
            calculateScrollSpeed 80 1 25 120 ≤ calculateScrollSpeed 80 1 25 100)) :=
  ⟨⟨by norm_num, by norm_num, by norm_num⟩,
    calculate_scroll_speed_spec 80 1 25 100 120
      (by norm_num) (by norm_num) (by norm_num)⟩

/-- C4: auto-scroll bounds for one iteration of the loop, assuming the DOM
invariant `clientWidth ≤ scrollWidth` of a scroll container: whenever a
nonzero scroll step is applied the new `scrollLeft` is the old one plus
direction times speed clamped to `[0, scrollWidth - clientWidth]`, the loop
never sets `scrollLeft` outside that interval, and `onScrollChange` is
invoked only when the clamped delta is nonzero. -/
theorem auto_scroll_loop_bounds
    (edgeThreshold acceleration maxScrollSpeed activationMargin : ℝ)
    (hasOnScrollChange : Bool) (c : AutoScrollContainer) (eventClientX : ℝ)
    (hcw : c.clientWidth ≤ c.scrollWidth) :
    AutoScrollLoopPost edgeThreshold acceleration maxScrollSpeed activationMargin
      hasOnScrollChange c eventClientX := by
  have hmsl : (0 : ℝ) ≤ c.scrollWidth - c.clientWidth := sub_nonneg.mpr hcw
  simp only [AutoScrollLoopPost, loopStep]
  split_ifs with hact hcb
  · refine ⟨fun _ => ⟨rfl, le_max_left _ _, max_le hmsl (min_le_right _ _)⟩,
      fun hn => absurd hact hn, ?_⟩
    intro d s hds
    simp only [Option.some.injEq, Prod.mk.injEq] at hds
    obtain ⟨h1, h2⟩ := hds
    subst h1
    subst h2
    exact ⟨hcb.1, hcb.2, rfl, rfl⟩
  · refine ⟨fun _ => ⟨rfl, le_max_left _ _, max_le hmsl (min_le_right _ _)⟩,
      fun hn => absurd hact hn, ?_⟩
    intro d s hds
    exact hds.elim
  · exact ⟨fun h => absurd h hact, fun _ => ⟨rfl, rfl⟩,
      fun d s hds => hds.elim⟩

/-- Witness for C4: a concrete container (`scrollLeft = 10`,
`scrollWidth = 1000`, `clientWidth = 500`, rectangle `[0, 500]`) with the
default hook options and the mouse in the middle of the container. -/
theorem auto_scroll_loop_bounds_witness :
    (500 : ℝ) ≤ 1000
      ∧ AutoScrollLoopPost 80 2.5 25 50 true ⟨10, 1000, 500, 0, 500⟩ 250 :=
  ⟨by norm_num,
    auto_scroll_loop_bounds 80 2.5 25 50 true ⟨10, 1000, 500, 0, 500⟩ 250
      (by norm_num)⟩

end Timeline
